import Mathlib

set_option autoImplicit false

/-!
Shallow embedding of scripts/generate-icon.py.

The script renders a macOS app icon (a gradient M glyph on a dark rounded
square), resizes it along a fixed resolution ladder and writes an icon-set
manifest.  The embedding below translates the script into Lean definitions:

* Python floats are modeled as exact rationals, and decimal literals such as
  0.22 as the exact decimal fractions they denote; Python int() on the
  nonnegative values arising here is rational truncation toward zero.
* PIL pixel buffers are functions from coordinates to channel values; the
  per-pixel loops of create_icon are folds of putpixel updates over the
  row-major coordinate list, exactly as the source iterates.
* PIL library primitives that the script calls are modeled by their documented
  per-pixel semantics: Image.alpha_composite is the straight-alpha over
  operator, ImageChops.multiply is the per-channel MULDIV255 product,
  ImageDraw.polygon fill is the even-odd point-in-polygon test, and
  ImageDraw.rounded_rectangle fill is the rounded-rectangle region predicate.
  ImageFilter.GaussianBlur and math.sqrt are kept as parameters (an arbitrary
  glow layer, an arbitrary nonnegative distance value) because their exact
  float outputs are irrelevant to every property proved here, which hold for
  all values of those parameters.
-/

namespace GenerateIcon

/-- Python int() truncation toward zero, on an exact rational value. -/
def pyInt (q : ℚ) : ℤ :=
if 0 ≤ q then ⌊q⌋ else -⌊-q⌋

/-! ### Resolution ladder and manifest (generate_all_sizes, update_contents_json) -/

/-- The fixed resolution ladder of generate_all_sizes (lines 149-160):
(pixel size, filename) pairs, in source order. -/
def sizes : List (Nat × String) :=
[(16, "icon_16x16.png"),
 (32, "icon_16x16@2x.png"),
 (32, "icon_32x32.png"),
 (64, "icon_32x32@2x.png"),
 (128, "icon_128x128.png"),
 (256, "icon_128x128@2x.png"),
 (256, "icon_256x256.png"),
 (512, "icon_256x256@2x.png"),
 (512, "icon_512x512.png"),
 (1024, "icon_512x512@2x.png")]

/-- One entry of the images array of Contents.json (lines 180-189). -/
structure ManifestImage where
  filename : String
  idiom : String
  scale : String
  size : String
deriving DecidableEq, Repr

/-- The images array written by update_contents_json (lines 178-192),
in source order. -/
def contents_images : List ManifestImage :=
[⟨"icon_16x16.png", "mac", "1x", "16x16"⟩,
 ⟨"icon_16x16@2x.png", "mac", "2x", "16x16"⟩,
 ⟨"icon_32x32.png", "mac", "1x", "32x32"⟩,
 ⟨"icon_32x32@2x.png", "mac", "2x", "32x32"⟩,
 ⟨"icon_128x128.png", "mac", "1x", "128x128"⟩,
 ⟨"icon_128x128@2x.png", "mac", "2x", "128x128"⟩,
 ⟨"icon_256x256.png", "mac", "1x", "256x256"⟩,
 ⟨"icon_256x256@2x.png", "mac", "2x", "256x256"⟩,
 ⟨"icon_512x512.png", "mac", "1x", "512x512"⟩,
 ⟨"icon_512x512@2x.png", "mac", "2x", "512x512"⟩]

/-- PIL Image.resize (line 165) returns an image of exactly the requested
pixel dimensions. -/
def resize (target : Nat × Nat) : Nat × Nat := target

/-- The files written by generate_all_sizes (lines 146-172), in order, as
(filename, pixel dimensions): one resized file per ladder entry, then the
master AppIcon.png saved at the unscaled base-image resolution. -/
def generate_all_sizes (base : Nat × Nat) : List (String × (Nat × Nat)) :=
(sizes.map fun e => (e.2, resize (e.1, e.1))) ++ [("AppIcon.png", base)]

/-- The filenames one run of main (lines 198-217) writes: the sized files and
the master from generate_all_sizes on the 1024-pixel base image, then
Contents.json from update_contents_json. -/
def pipeline_files : List String :=
(generate_all_sizes (1024, 1024)).map Prod.fst ++ ["Contents.json"]

/-! ### Glyph geometry (create_icon, lines 63-99) -/

/-- margin_x = int(size * 0.18), line 64. -/
def margin_x (size : Nat) : Nat := size * 18 / 100

/-- margin_top = int(size * 0.22), line 65. -/
def margin_top (size : Nat) : Nat := size * 22 / 100

/-- margin_bottom = int(size * 0.22), line 66. -/
def margin_bottom (size : Nat) : Nat := size * 22 / 100

/-- stroke = int(size * 0.125), line 67. -/
def stroke (size : Nat) : Nat := size * 125 / 1000

/-- corner_radius = int(size * 0.22), line 36. -/
def corner_radius (size : Nat) : Nat := size * 22 / 100

/-- left = margin_x, line 69. -/
def left (size : Nat) : Nat := margin_x size

/-- right = size - margin_x, line 70. -/
def right (size : Nat) : Nat := size - margin_x size

/-- top = margin_top, line 71. -/
def top (size : Nat) : Nat := margin_top size

/-- bottom = size - margin_bottom, line 72. -/
def bottom (size : Nat) : Nat := size - margin_bottom size

/-- center_x = size // 2, line 73. -/
def center_x (size : Nat) : Nat := size / 2

/-- v_depth = int(size * 0.28), line 74. -/
def v_depth (size : Nat) : Nat := size * 28 / 100

/-- The m_outer point list (lines 78-99): the single closed 12-vertex contour
of the M glyph, in source order, with float coordinates as exact rationals. -/
def m_outer (size : Nat) : List (ℚ × ℚ) :=
[((left size : ℚ), (bottom size : ℚ)),
 ((left size : ℚ), (top size : ℚ)),
 ((left size : ℚ) + (stroke size : ℚ) * (11 / 10), (top size : ℚ)),
 ((center_x size : ℚ), (top size : ℚ) + (v_depth size : ℚ)),
 ((right size : ℚ) - (stroke size : ℚ) * (11 / 10), (top size : ℚ)),
 ((right size : ℚ), (top size : ℚ)),
 ((right size : ℚ), (bottom size : ℚ)),
 ((right size : ℚ) - (stroke size : ℚ), (bottom size : ℚ)),
 ((right size : ℚ) - (stroke size : ℚ), (top size : ℚ) + (stroke size : ℚ) * (4 / 5)),
 ((center_x size : ℚ), (top size : ℚ) + (v_depth size : ℚ) + (stroke size : ℚ) * (7 / 10)),
 ((left size : ℚ) + (stroke size : ℚ), (top size : ℚ) + (stroke size : ℚ) * (4 / 5)),
 ((left size : ℚ) + (stroke size : ℚ), (bottom size : ℚ))]

/-! ### Pixel buffers and per-pixel loops -/

/-- An in-memory pixel buffer: a total map from (x, y) coordinates to a pixel
value. -/
def Buffer (π : Type) : Type := Nat × Nat → π

/-- Image.putpixel: one destructive pixel write. -/
def putpixel {π : Type} (buf : Buffer π) (p : Nat × Nat) (v : π) : Buffer π :=
fun q => if q = p then v else buf q

/-- The row-major coordinate sequence of the nested per-pixel loops of
create_icon (for y in range(size): for x in range(size)). -/
def coords (size : Nat) : List (Nat × Nat) :=
(List.range size).flatMap fun y => (List.range size).map fun x => (x, y)

/-- A per-pixel loop writing f x y at every coordinate, as a left fold of
putpixel over the row-major coordinate list, starting from initial buffer
contents buf0. -/
def pixel_loop {π : Type} (f : Nat → Nat → π) (size : Nat) (buf0 : Buffer π) : Buffer π :=
(coords size).foldl (fun buf p => putpixel buf p (f p.1 p.2)) buf0

/-- An RGBA pixel, one integer per channel. -/
structure RGBA where
  r : ℤ
  g : ℤ
  b : ℤ
  a : ℤ
deriving DecidableEq, Repr

/-! ### Background painter (create_icon, lines 39-51) -/

/-- bg_dark = (24, 24, 27), line 28. -/
def bg_dark : ℤ × ℤ × ℤ := (24, 24, 27)

/-- bg_lighter = (39, 39, 42), line 29. -/
def bg_lighter : ℤ × ℤ × ℤ := (39, 39, 42)

/-- The background blend weight t = min(1.0, dist * 0.7) (line 47), where
dist stands for the math.sqrt value of line 44, kept as a parameter because
its float value never matters below: every property proved about the
background holds for all nonnegative dist. -/
def bg_t (dist : ℚ) : ℚ := min 1 (dist * (7 / 10))

/-- One channel of the background interpolation (lines 48-50):
int(lighter + (dark - lighter) * t). -/
def bg_chan (lighter dark : ℤ) (t : ℚ) : ℤ :=
pyInt ((lighter : ℚ) + ((dark : ℚ) - (lighter : ℚ)) * t)

/-- The pixel the background loop writes at one coordinate (lines 47-51),
given the distance value for that pixel: the interpolated color, fully
opaque. -/
def bg_pixel (dist : ℚ) : RGBA :=
⟨bg_chan bg_lighter.1 bg_dark.1 (bg_t dist),
 bg_chan bg_lighter.2.1 bg_dark.2.1 (bg_t dist),
 bg_chan bg_lighter.2.2 bg_dark.2.2 (bg_t dist),
 255⟩

/-- The background buffer after the loop of lines 39-51, over a per-pixel
distance function, starting from the transparent buffer of Image.new
(line 25). -/
def background (dist : Nat → Nat → ℚ) (size : Nat) : Buffer RGBA :=
pixel_loop (fun x y => bg_pixel (dist x y)) size (fun _ => ⟨0, 0, 0, 0⟩)

/-! ### Rounded-rectangle mask (create_icon, lines 53-57) -/

/-- Membership of pixel (x, y) in the region that
ImageDraw.rounded_rectangle([0, 0, size, size], radius, fill) covers
(line 56), by its documented geometry: the bounding rectangle, with each
corner square replaced by the quarter disc of the given radius centered one
radius inside that corner. -/
def in_rounded_rect (size radius x y : Nat) : Prop :=
x ≤ size ∧ y ≤ size ∧
((x : ℤ) < radius ∧ (y : ℤ) < radius →
  ((radius : ℤ) - x) ^ 2 + ((radius : ℤ) - y) ^ 2 ≤ (radius : ℤ) ^ 2) ∧
((size : ℤ) - radius < x ∧ (y : ℤ) < radius →
  ((x : ℤ) - ((size : ℤ) - radius)) ^ 2 + ((radius : ℤ) - y) ^ 2 ≤ (radius : ℤ) ^ 2) ∧
((x : ℤ) < radius ∧ (size : ℤ) - radius < y →
  ((radius : ℤ) - x) ^ 2 + ((y : ℤ) - ((size : ℤ) - radius)) ^ 2 ≤ (radius : ℤ) ^ 2) ∧
((size : ℤ) - radius < x ∧ (size : ℤ) - radius < y →
  ((x : ℤ) - ((size : ℤ) - radius)) ^ 2 + ((y : ℤ) - ((size : ℤ) - radius)) ^ 2 ≤ (radius : ℤ) ^ 2)

instance (size radius x y : Nat) : Decidable (in_rounded_rect size radius x y) := by
  unfold in_rounded_rect
  infer_instance

/-- The single-channel mask of lines 54-57: Image.new L fills with 0, then
rounded_rectangle fills the rounded region with 255. -/
def rounded_mask (size x y : Nat) : Nat :=
if in_rounded_rect size (corner_radius size) x y then 255 else 0

/-! ### The M gradient (create_icon, lines 102-126) -/

/-- grad_top = (255, 120, 100), line 32. -/
def grad_top : ℤ × ℤ × ℤ := (255, 120, 100)

/-- grad_mid = (255, 65, 55), line 33. -/
def grad_mid : ℤ × ℤ × ℤ := (255, 65, 55)

/-- grad_bottom = (200, 30, 25), line 34. -/
def grad_bottom : ℤ × ℤ × ℤ := (200, 30, 25)

/-- The normalized gradient position t of row y (lines 106-111): 0 above the
glyph top, 1 below the glyph bottom, (y - top) / (bottom - top) in between. -/
def grad_t (size y : Nat) : ℚ :=
if y < top size then 0
else if y > bottom size then 1
else ((y : ℚ) - (top size : ℚ)) / ((bottom size : ℚ) - (top size : ℚ))

/-- One channel of the linear interpolation exactly as the source computes it:
int(a + (b - a) * t2) (lines 116-118 and 121-123). -/
def lerp_chan (a b : ℤ) (t2 : ℚ) : ℤ :=
pyInt ((a : ℚ) + ((b : ℚ) - (a : ℚ)) * t2)

/-- The row color of the M gradient (lines 113-123): a three-point gradient,
top-to-mid for t < 0.5 with t2 = t * 2, and mid-to-bottom otherwise with
t2 = (t - 0.5) * 2. -/
def row_color (size y : Nat) : ℤ × ℤ × ℤ :=
if grad_t size y < 1 / 2 then
  (lerp_chan grad_top.1 grad_mid.1 (grad_t size y * 2),
   lerp_chan grad_top.2.1 grad_mid.2.1 (grad_t size y * 2),
   lerp_chan grad_top.2.2 grad_mid.2.2 (grad_t size y * 2))
else
  (lerp_chan grad_mid.1 grad_bottom.1 ((grad_t size y - 1 / 2) * 2),
   lerp_chan grad_mid.2.1 grad_bottom.2.1 ((grad_t size y - 1 / 2) * 2),
   lerp_chan grad_mid.2.2 grad_bottom.2.2 ((grad_t size y - 1 / 2) * 2))

/-- The pixel the gradient loop writes everywhere in row y (line 126): the row
color with alpha 255. -/
def m_gradient_at (size y : Nat) : RGBA :=
⟨(row_color size y).1, (row_color size y).2.1, (row_color size y).2.2, 255⟩

/-- The m_gradient buffer after the loop of lines 104-126: the per-row color
is written at every x of the row, starting from the transparent buffer that
Image.new gives (line 103). -/
def m_gradient (size : Nat) : Buffer RGBA :=
pixel_loop (fun _ y => m_gradient_at size y) size (fun _ => ⟨0, 0, 0, 0⟩)

/-! ### Polygon fill (ImageDraw.polygon, line 100) -/

/-- The closed edge list of a polygon, given the first vertex to close back
to and the remaining traversal: consecutive vertex pairs plus the closing
edge back to the first vertex. -/
def poly_edges_from (first : ℚ × ℚ) : List (ℚ × ℚ) → List ((ℚ × ℚ) × (ℚ × ℚ))
  | [] => []
  | [p] => [(p, first)]
  | p :: q :: rest => (p, q) :: poly_edges_from first (q :: rest)

/-- The closed edge list of a polygon given by its vertex list. -/
def poly_edges : List (ℚ × ℚ) → List ((ℚ × ℚ) × (ℚ × ℚ))
  | [] => []
  | p :: rest => poly_edges_from p (p :: rest)

/-- Whether edge e spans the horizontal level c, under the half-open
convention that counts each level once per strict traversal. -/
def edge_spans (c : ℚ) (e : (ℚ × ℚ) × (ℚ × ℚ)) : Prop :=
(e.1.2 ≤ c ∧ c < e.2.2) ∨ (e.2.2 ≤ c ∧ c < e.1.2)

instance (c : ℚ) (e : (ℚ × ℚ) × (ℚ × ℚ)) : Decidable (edge_spans c e) := by
  unfold edge_spans
  infer_instance

/-- Whether the horizontal ray going right from point p crosses edge e: the
edge spans the level of p and the intersection abscissa lies strictly to the
right of p. -/
def ray_crosses (p : ℚ × ℚ) (e : (ℚ × ℚ) × (ℚ × ℚ)) : Prop :=
edge_spans p.2 e ∧
p.1 < e.1.1 + (p.2 - e.1.2) * (e.2.1 - e.1.1) / (e.2.2 - e.1.2)

instance (p : ℚ × ℚ) (e : (ℚ × ℚ) × (ℚ × ℚ)) : Decidable (ray_crosses p e) := by
  unfold ray_crosses
  infer_instance

/-- Even-odd point-in-polygon test by ray casting, the fill rule modeling the
region ImageDraw.polygon(fill) covers: a point is inside when its rightward
horizontal ray crosses an odd number of polygon edges. -/
def inside_poly (ps : List (ℚ × ℚ)) (p : ℚ × ℚ) : Prop :=
((poly_edges ps).countP fun e => decide (ray_crosses p e)) % 2 = 1

instance (ps : List (ℚ × ℚ)) (p : ℚ × ℚ) : Decidable (inside_poly ps p) := by
  unfold inside_poly
  infer_instance

/-- The M-glyph mask (lines 59-100): Image.new L fills with 0, then the
m_outer polygon is filled with 255 (line 100). -/
def m_mask (size x y : Nat) : Nat :=
if inside_poly (m_outer size) ((x : ℚ), (y : ℚ)) then 255 else 0

/-! ### Compositing and the finalizer (create_icon, lines 131-144) -/

/-- The straight-alpha over operator of Image.alpha_composite
(lines 138-139), per pixel, src over dst, channels rounded with Python
int(). -/
def over_pixel (dst src : RGBA) : RGBA :=
⟨(if (src.a : ℚ) / 255 + ((dst.a : ℚ) / 255) * (1 - (src.a : ℚ) / 255) = 0 then 0 else
    pyInt (((src.r : ℚ) * ((src.a : ℚ) / 255) +
      (dst.r : ℚ) * ((dst.a : ℚ) / 255) * (1 - (src.a : ℚ) / 255)) /
      ((src.a : ℚ) / 255 + ((dst.a : ℚ) / 255) * (1 - (src.a : ℚ) / 255)))),
 (if (src.a : ℚ) / 255 + ((dst.a : ℚ) / 255) * (1 - (src.a : ℚ) / 255) = 0 then 0 else
    pyInt (((src.g : ℚ) * ((src.a : ℚ) / 255) +
      (dst.g : ℚ) * ((dst.a : ℚ) / 255) * (1 - (src.a : ℚ) / 255)) /
      ((src.a : ℚ) / 255 + ((dst.a : ℚ) / 255) * (1 - (src.a : ℚ) / 255)))),
 (if (src.a : ℚ) / 255 + ((dst.a : ℚ) / 255) * (1 - (src.a : ℚ) / 255) = 0 then 0 else
    pyInt (((src.b : ℚ) * ((src.a : ℚ) / 255) +
      (dst.b : ℚ) * ((dst.a : ℚ) / 255) * (1 - (src.a : ℚ) / 255)) /
      ((src.a : ℚ) / 255 + ((dst.a : ℚ) / 255) * (1 - (src.a : ℚ) / 255)))),
 pyInt (((src.a : ℚ) / 255 + ((dst.a : ℚ) / 255) * (1 - (src.a : ℚ) / 255)) * 255)⟩

/-- The channel product of ImageChops.multiply (line 142), the MULDIV255
rounding PIL uses: tmp = a * b + 128; result = ((tmp >> 8) + tmp) >> 8. -/
def muldiv255 (a b : ℤ) : ℤ :=
((a * b + 128) / 256 + (a * b + 128)) / 256

/-- The background layer as it stands after lines 39-57, at one pixel: the
radial-gradient color from the loop started on buffer bg0, with the
rounded-corner mask installed as its alpha channel by img.putalpha(mask)
(line 57). -/
def layer_bg_from (dist : Nat → Nat → ℚ) (size : Nat) (bg0 : Buffer RGBA) (x y : Nat) : RGBA :=
⟨(pixel_loop (fun xx yy => bg_pixel (dist xx yy)) size bg0 (x, y)).r,
 (pixel_loop (fun xx yy => bg_pixel (dist xx yy)) size bg0 (x, y)).g,
 (pixel_loop (fun xx yy => bg_pixel (dist xx yy)) size bg0 (x, y)).b,
 (rounded_mask size x y : ℤ)⟩

/-- The glyph layer as it stands after lines 102-129, at one pixel: the row
gradient from the loop started on buffer grad0, with the M mask installed as
its alpha channel by m_gradient.putalpha(m_mask) (line 129). -/
def layer_grad_from (size : Nat) (grad0 : Buffer RGBA) (x y : Nat) : RGBA :=
⟨(pixel_loop (fun _ yy => m_gradient_at size yy) size grad0 (x, y)).r,
 (pixel_loop (fun _ yy => m_gradient_at size yy) size grad0 (x, y)).g,
 (pixel_loop (fun _ yy => m_gradient_at size yy) size grad0 (x, y)).b,
 (m_mask size x y : ℤ)⟩

/-- One pixel of the finalized icon (lines 137-142), with the canvas initial
contents made explicit (bg0 and grad0 are the buffers Image.new returns, the
glow layer is the Gaussian-blurred polygon of lines 132-135 kept as a
parameter): alpha-composite background, then glow, then the sharp glyph, in
that order, then re-apply the rounded mask to the alpha channel with
ImageChops.multiply. -/
def create_icon_from (glow : Nat → Nat → RGBA) (dist : Nat → Nat → ℚ)
    (size : Nat) (bg0 grad0 : Buffer RGBA) (x y : Nat) : RGBA :=
⟨(over_pixel (over_pixel (layer_bg_from dist size bg0 x y) (glow x y))
    (layer_grad_from size grad0 x y)).r,
 (over_pixel (over_pixel (layer_bg_from dist size bg0 x y) (glow x y))
    (layer_grad_from size grad0 x y)).g,
 (over_pixel (over_pixel (layer_bg_from dist size bg0 x y) (glow x y))
    (layer_grad_from size grad0 x y)).b,
 muldiv255 (over_pixel (over_pixel (layer_bg_from dist size bg0 x y) (glow x y))
    (layer_grad_from size grad0 x y)).a (rounded_mask size x y : ℤ)⟩

/-- One pixel of create_icon as the script runs it: every buffer starts from
the transparent contents Image.new gives (lines 25 and 103). -/
def create_icon (glow : Nat → Nat → RGBA) (dist : Nat → Nat → ℚ) (size x y : Nat) : RGBA :=
create_icon_from glow dist size (fun _ => ⟨0, 0, 0, 0⟩) (fun _ => ⟨0, 0, 0, 0⟩) x y

/-! ### Module-level import guard (lines 10-16) -/

/-- Outcome of the module-level dependency bootstrap. -/
inductive BootstrapOutcome where
  | ok (bound : List String)
  | aborted (err : String)
deriving DecidableEq, Repr

/-- The import guard (lines 10-16), over the two outcomes the environment can
give: whether the initial PIL import succeeds and whether the pip install
succeeds.  Returns the final outcome (the PIL names left bound, or an abort
carrying the underlying error) paired with the number of install attempts.
On the fallback path the retried import (line 16) binds only Image, ImageDraw
and ImageFilter. -/
def import_guard (importOk : Bool) (installOk : Bool) : BootstrapOutcome × Nat :=
if importOk then
  (BootstrapOutcome.ok ["Image", "ImageDraw", "ImageFilter", "ImageChops"], 0)
else if installOk then
  (BootstrapOutcome.ok ["Image", "ImageDraw", "ImageFilter"], 1)
else
  (BootstrapOutcome.aborted "CalledProcessError", 1)

/-- The PIL names create_icon references (lines 21-144): Image at line 25,
ImageDraw at line 55, ImageFilter at line 135, ImageChops at line 142. -/
def create_icon_names : List String := ["Image", "ImageDraw", "ImageFilter", "ImageChops"]

/-- Whether create_icon can run to completion given the names the import guard
bound: every referenced name must be bound, otherwise Python raises NameError
at the first unbound reference. -/
def create_icon_completes (bound : List String) : Bool :=
create_icon_names.all fun n => bound.contains n

end GenerateIcon

namespace GenerateIcon

/-! ### Theorems -/

/-! #### Helper lemmas -/

theorem pyInt_intCast (n : ℤ) : pyInt (n : ℚ) = n := by
  unfold pyInt
  by_cases h : (0 : ℚ) ≤ (n : ℚ)
  · rw [if_pos h, Int.floor_intCast]
  · rw [if_neg h]
    have hn : -(n : ℚ) = ((-n : ℤ) : ℚ) := by push_cast; ring
    rw [hn, Int.floor_intCast, neg_neg]

theorem lerp_chan_zero (a b : ℤ) : lerp_chan a b 0 = a := by
  unfold lerp_chan
  have h : (a : ℚ) + ((b : ℚ) - (a : ℚ)) * 0 = (a : ℚ) := by ring
  rw [h, pyInt_intCast]

theorem lerp_chan_one (a b : ℤ) : lerp_chan a b 1 = b := by
  unfold lerp_chan
  have h : (a : ℚ) + ((b : ℚ) - (a : ℚ)) * 1 = (b : ℚ) := by ring
  rw [h, pyInt_intCast]

theorem top_lt_bottom (size : Nat) (h : 1 ≤ size) : top size < bottom size := by
  unfold top bottom margin_top margin_bottom
  omega

theorem foldl_putpixel_of_not_mem {π : Type} (f : Nat → Nat → π) (l : List (Nat × Nat))
    (buf0 : Buffer π) (p : Nat × Nat) (hp : p ∉ l) :
    (l.foldl (fun buf q => putpixel buf q (f q.1 q.2)) buf0) p = buf0 p := by
  induction l generalizing buf0 with
  | nil => rfl
  | cons q t ih =>
    have hq : p ≠ q := fun hx => hp (hx ▸ List.mem_cons_self q t)
    have hpt : p ∉ t := fun hx => hp (List.mem_cons_of_mem q hx)
    simp only [List.foldl_cons]
    rw [ih (putpixel buf0 q (f q.1 q.2)) hpt]
    simp [putpixel, hq]

theorem foldl_putpixel_of_mem {π : Type} (f : Nat → Nat → π) (l : List (Nat × Nat))
    (buf0 : Buffer π) (p : Nat × Nat) (hp : p ∈ l) :
    (l.foldl (fun buf q => putpixel buf q (f q.1 q.2)) buf0) p = f p.1 p.2 := by
  induction l generalizing buf0 with
  | nil => cases hp
  | cons q t ih =>
    simp only [List.foldl_cons]
    by_cases hpt : p ∈ t
    · exact ih _ hpt
    · have hq : p = q := by
        rcases List.mem_cons.mp hp with hx | hx
        · exact hx
        · exact absurd hx hpt
      subst hq
      rw [foldl_putpixel_of_not_mem f t _ p hpt]
      simp [putpixel]

theorem mem_coords (size x y : Nat) (hx : x < size) (hy : y < size) :
    (x, y) ∈ coords size := by
  unfold coords
  rw [List.mem_flatMap]
  exact ⟨y, List.mem_range.mpr hy, List.mem_map.mpr ⟨x, List.mem_range.mpr hx, rfl⟩⟩

theorem pixel_loop_eq {π : Type} (f : Nat → Nat → π) (size : Nat) (buf0 : Buffer π)
    (x y : Nat) (hx : x < size) (hy : y < size) :
    pixel_loop f size buf0 (x, y) = f x y :=
  foldl_putpixel_of_mem f (coords size) buf0 (x, y) (mem_coords size x y hx hy)

theorem grad_t_eq_clamp (size y : Nat) (h : 1 ≤ size) :
    grad_t size y =
      max 0 (min 1 (((y : ℚ) - (top size : ℚ)) / ((bottom size : ℚ) - (top size : ℚ)))) := by
  have htb := top_lt_bottom size h
  have hd : (0 : ℚ) < (bottom size : ℚ) - (top size : ℚ) := by
    have hc : (top size : ℚ) < (bottom size : ℚ) := by exact_mod_cast htb
    linarith
  unfold grad_t
  by_cases h1 : y < top size
  · rw [if_pos h1]
    have hy : (y : ℚ) < (top size : ℚ) := by exact_mod_cast h1
    have hr : ((y : ℚ) - (top size : ℚ)) / ((bottom size : ℚ) - (top size : ℚ)) < 0 :=
      div_neg_of_neg_of_pos (by linarith) hd
    rw [min_eq_right (le_of_lt (lt_of_lt_of_le hr zero_le_one)),
      max_eq_left (le_of_lt hr)]
  · rw [if_neg h1]
    by_cases h2 : y > bottom size
    · rw [if_pos h2]
      have hy : (bottom size : ℚ) < (y : ℚ) := by exact_mod_cast h2
      have hr : 1 < ((y : ℚ) - (top size : ℚ)) / ((bottom size : ℚ) - (top size : ℚ)) := by
        rw [lt_div_iff₀ hd]
        linarith
      rw [min_eq_left (le_of_lt hr), max_eq_right zero_le_one]
    · rw [if_neg h2]
      push_neg at h1 h2
      have hy1 : (top size : ℚ) ≤ (y : ℚ) := by exact_mod_cast h1
      have hy2 : (y : ℚ) ≤ (bottom size : ℚ) := by exact_mod_cast h2
      have hr0 : 0 ≤ ((y : ℚ) - (top size : ℚ)) / ((bottom size : ℚ) - (top size : ℚ)) :=
        div_nonneg (by linarith) (le_of_lt hd)
      have hr1 : ((y : ℚ) - (top size : ℚ)) / ((bottom size : ℚ) - (top size : ℚ)) ≤ 1 := by
        rw [div_le_one hd]
        linarith
      rw [min_eq_right hr1, max_eq_right hr0]

theorem grad_t_top (size : Nat) (h : 1 ≤ size) : grad_t size (top size) = 0 := by
  have htb := top_lt_bottom size h
  unfold grad_t
  rw [if_neg (lt_irrefl _), if_neg (by omega : ¬ top size > bottom size)]
  simp

theorem grad_t_bottom (size : Nat) (h : 1 ≤ size) : grad_t size (bottom size) = 1 := by
  have htb := top_lt_bottom size h
  have hd : (0 : ℚ) < (bottom size : ℚ) - (top size : ℚ) := by
    have hc : (top size : ℚ) < (bottom size : ℚ) := by exact_mod_cast htb
    linarith
  unfold grad_t
  rw [if_neg (by omega : ¬ bottom size < top size), if_neg (lt_irrefl _),
    div_self (ne_of_gt hd)]

theorem grad_t_mid (size y : Nat) (h : 1 ≤ size) (hm : 2 * y = top size + bottom size) :
    grad_t size y = 1 / 2 := by
  have htb := top_lt_bottom size h
  have hd : (0 : ℚ) < (bottom size : ℚ) - (top size : ℚ) := by
    have hc : (top size : ℚ) < (bottom size : ℚ) := by exact_mod_cast htb
    linarith
  unfold grad_t
  rw [if_neg (by omega : ¬ y < top size), if_neg (by omega : ¬ y > bottom size)]
  have hq : (2 : ℚ) * (y : ℚ) = (top size : ℚ) + (bottom size : ℚ) := by exact_mod_cast hm
  rw [div_eq_iff (ne_of_gt hd)]
  linarith

theorem row_color_top (size : Nat) (h : 1 ≤ size) : row_color size (top size) = grad_top := by
  unfold row_color
  rw [grad_t_top size h, if_pos (by norm_num : (0 : ℚ) < 1 / 2)]
  norm_num [lerp_chan_zero]

theorem row_color_bottom (size : Nat) (h : 1 ≤ size) :
    row_color size (bottom size) = grad_bottom := by
  unfold row_color
  rw [grad_t_bottom size h, if_neg (by norm_num : ¬ (1 : ℚ) < 1 / 2)]
  norm_num [lerp_chan_one]

theorem row_color_mid (size y : Nat) (h : 1 ≤ size) (hm : 2 * y = top size + bottom size) :
    row_color size y = grad_mid := by
  unfold row_color
  rw [grad_t_mid size y h hm, if_neg (lt_irrefl _)]
  norm_num [lerp_chan_zero]

theorem bg_chan_bounds (lighter dark : ℤ) (t : ℚ) (hdl : dark ≤ lighter)
    (hdark : 0 ≤ dark) (ht0 : 0 ≤ t) (ht1 : t ≤ 1) :
    dark ≤ bg_chan lighter dark t ∧ bg_chan lighter dark t ≤ lighter := by
  unfold bg_chan
  have hdl2 : (dark : ℚ) ≤ (lighter : ℚ) := by exact_mod_cast hdl
  have hlow : (dark : ℚ) ≤ (lighter : ℚ) + ((dark : ℚ) - (lighter : ℚ)) * t := by
    nlinarith [mul_nonneg (sub_nonneg.mpr hdl2) (sub_nonneg.mpr ht1)]
  have hhigh : (lighter : ℚ) + ((dark : ℚ) - (lighter : ℚ)) * t ≤ (lighter : ℚ) := by
    nlinarith [mul_nonneg (sub_nonneg.mpr hdl2) ht0]
  have hv0 : (0 : ℚ) ≤ (lighter : ℚ) + ((dark : ℚ) - (lighter : ℚ)) * t :=
    le_trans (by exact_mod_cast hdark) hlow
  unfold pyInt
  rw [if_pos hv0]
  constructor
  · exact Int.le_floor.mpr hlow
  · have hfl : ((⌊(lighter : ℚ) + ((dark : ℚ) - (lighter : ℚ)) * t⌋ : ℤ) : ℚ) ≤ (lighter : ℚ) :=
      le_trans (Int.floor_le _) hhigh
    exact_mod_cast hfl

theorem countP_ext {α : Type} (p q : α → Bool) (l : List α) (h : ∀ a ∈ l, p a = q a) :
    l.countP p = l.countP q := by
  induction l with
  | nil => rfl
  | cons a t ih =>
    rw [List.countP_cons, List.countP_cons, h a (List.mem_cons_self a t),
      ih fun b hb => h b (List.mem_cons_of_mem a hb)]

theorem edge_spans_iff (c : ℚ) (e : (ℚ × ℚ) × (ℚ × ℚ)) :
    edge_spans c e ↔ ¬ ((e.1.2 ≤ c) ↔ (e.2.2 ≤ c)) := by
  unfold edge_spans
  by_cases h1 : e.1.2 ≤ c <;> by_cases h2 : e.2.2 ≤ c <;> simp [h1, h2, not_le]
  · linarith
  · linarith

theorem countP_spans_from_parity (c : ℚ) (first : ℚ × ℚ) (l : List (ℚ × ℚ)) :
    ∀ p : ℚ × ℚ,
    ((poly_edges_from first (p :: l)).countP fun e => decide (edge_spans c e)) % 2 =
      if (p.2 ≤ c) ↔ (first.2 ≤ c) then 0 else 1 := by
  induction l with
  | nil =>
    intro p
    simp only [poly_edges_from, List.countP_cons, List.countP_nil]
    by_cases hpf : (p.2 ≤ c) ↔ (first.2 ≤ c)
    · rw [if_pos hpf]
      have hns : ¬ edge_spans c (p, first) := by
        rw [edge_spans_iff]
        simpa using hpf
      simp [hns]
    · rw [if_neg hpf]
      have hs : edge_spans c (p, first) := (edge_spans_iff c (p, first)).mpr hpf
      simp [hs]
  | cons q rest ih =>
    intro p
    simp only [poly_edges_from, List.countP_cons]
    have hq := ih q
    have hd : (decide (edge_spans c (p, q)) = true) ↔ ¬ ((p.2 ≤ c) ↔ (q.2 ≤ c)) := by
      rw [decide_eq_true_eq]
      exact edge_spans_iff c (p, q)
    by_cases h1 : p.2 ≤ c <;> by_cases h2 : q.2 ≤ c <;> by_cases h3 : first.2 ≤ c <;>
      simp [h1, h2, h3, hd] at hq ⊢ <;> omega

theorem poly_edges_parity (c : ℚ) (ps : List (ℚ × ℚ)) :
    ((poly_edges ps).countP fun e => decide (edge_spans c e)) % 2 = 0 := by
  cases ps with
  | nil => rfl
  | cons p l =>
    show ((poly_edges_from p (p :: l)).countP fun e => decide (edge_spans c e)) % 2 = 0
    rw [countP_spans_from_parity c p l p, if_pos Iff.rfl]

theorem poly_edges_from_mem (first : ℚ × ℚ) :
    ∀ (l : List (ℚ × ℚ)) (e : (ℚ × ℚ) × (ℚ × ℚ)), e ∈ poly_edges_from first l →
    e.1 ∈ l ∧ (e.2 ∈ l ∨ e.2 = first) := by
  intro l
  induction l with
  | nil =>
    intro e he
    cases he
  | cons p t ih =>
    intro e he
    cases t with
    | nil =>
      have : e = (p, first) := by
        cases he with
        | head => rfl
        | tail _ h => cases h
      subst this
      exact ⟨List.mem_cons_self p [], Or.inr rfl⟩
    | cons q rest =>
      cases he with
      | head =>
        exact ⟨List.mem_cons_self p (q :: rest),
          Or.inl (List.mem_cons_of_mem p (List.mem_cons_self q rest))⟩
      | tail _ h =>
        obtain ⟨h1, h2⟩ := ih e h
        refine ⟨List.mem_cons_of_mem p h1, ?_⟩
        cases h2 with
        | inl hh => exact Or.inl (List.mem_cons_of_mem p hh)
        | inr hh => exact Or.inr hh

theorem poly_edges_mem (ps : List (ℚ × ℚ)) (e : (ℚ × ℚ) × (ℚ × ℚ))
    (he : e ∈ poly_edges ps) : e.1 ∈ ps ∧ e.2 ∈ ps := by
  cases ps with
  | nil => cases he
  | cons p l =>
    obtain ⟨h1, h2⟩ := poly_edges_from_mem p (p :: l) e he
    refine ⟨h1, ?_⟩
    cases h2 with
    | inl hh => exact hh
    | inr hh => exact hh ▸ List.mem_cons_self p l

theorem crossing_x_bounds (c : ℚ) (e : (ℚ × ℚ) × (ℚ × ℚ)) (h : edge_spans c e) :
    min e.1.1 e.2.1 ≤ e.1.1 + (c - e.1.2) * (e.2.1 - e.1.1) / (e.2.2 - e.1.2) ∧
    e.1.1 + (c - e.1.2) * (e.2.1 - e.1.1) / (e.2.2 - e.1.2) ≤ max e.1.1 e.2.1 := by
  have key : ∃ t : ℚ, 0 ≤ t ∧ t ≤ 1 ∧
      e.1.1 + (c - e.1.2) * (e.2.1 - e.1.1) / (e.2.2 - e.1.2) =
        e.1.1 + t * (e.2.1 - e.1.1) := by
    refine ⟨(c - e.1.2) / (e.2.2 - e.1.2), ?_, ?_, by ring⟩
    · rcases h with ⟨h1, h2⟩ | ⟨h1, h2⟩
      · exact div_nonneg (by linarith) (by linarith)
      · rw [show c - e.1.2 = -(e.1.2 - c) by ring, show e.2.2 - e.1.2 = -(e.1.2 - e.2.2) by ring,
          neg_div_neg_eq]
        exact div_nonneg (by linarith) (by linarith)
    · rcases h with ⟨h1, h2⟩ | ⟨h1, h2⟩
      · rw [div_le_one (by linarith)]
        linarith
      · rw [show c - e.1.2 = -(e.1.2 - c) by ring, show e.2.2 - e.1.2 = -(e.1.2 - e.2.2) by ring,
          neg_div_neg_eq, div_le_one (by linarith)]
        linarith
  obtain ⟨t, ht0, ht1, hxi⟩ := key
  rw [hxi]
  rcases le_total e.1.1 e.2.1 with hab | hab
  · rw [min_eq_left hab, max_eq_right hab]
    constructor
    · nlinarith [mul_nonneg ht0 (sub_nonneg.mpr hab)]
    · nlinarith [mul_nonneg (sub_nonneg.mpr ht1) (sub_nonneg.mpr hab)]
  · rw [min_eq_right hab, max_eq_left hab]
    constructor
    · nlinarith [mul_nonneg (sub_nonneg.mpr ht1) (sub_nonneg.mpr hab)]
    · nlinarith [mul_nonneg ht0 (sub_nonneg.mpr hab)]

theorem not_inside_of_right (ps : List (ℚ × ℚ)) (pt : ℚ × ℚ) (B : ℚ)
    (hB : ∀ v ∈ ps, v.1 ≤ B) (hx : B < pt.1) : ¬ inside_poly ps pt := by
  unfold inside_poly
  intro hodd
  have hzero : ((poly_edges ps).countP fun e => decide (ray_crosses pt e)) = 0 := by
    rw [List.countP_eq_zero]
    intro e he
    simp only [decide_eq_true_eq]
    rintro ⟨hsp, hlt⟩
    obtain ⟨h1, h2⟩ := poly_edges_mem ps e he
    have hxb := (crossing_x_bounds pt.2 e hsp).2
    have hmx : max e.1.1 e.2.1 ≤ B := max_le (hB e.1 h1) (hB e.2 h2)
    linarith
  rw [hzero] at hodd
  exact absurd hodd (by norm_num)

theorem not_inside_of_left (ps : List (ℚ × ℚ)) (pt : ℚ × ℚ) (A : ℚ)
    (hA : ∀ v ∈ ps, A ≤ v.1) (hx : pt.1 < A) : ¬ inside_poly ps pt := by
  unfold inside_poly
  intro hodd
  have hcong : ((poly_edges ps).countP fun e => decide (ray_crosses pt e)) =
      ((poly_edges ps).countP fun e => decide (edge_spans pt.2 e)) := by
    apply countP_ext
    intro e he
    obtain ⟨h1, h2⟩ := poly_edges_mem ps e he
    rw [decide_eq_decide]
    constructor
    · exact fun hrc => hrc.1
    · intro hsp
      refine ⟨hsp, ?_⟩
      have hxb := (crossing_x_bounds pt.2 e hsp).1
      have hmn : A ≤ min e.1.1 e.2.1 := le_min (hA e.1 h1) (hA e.2 h2)
      linarith
  rw [hcong] at hodd
  have := poly_edges_parity pt.2 ps
  omega

theorem not_inside_of_y (ps : List (ℚ × ℚ)) (pt : ℚ × ℚ) (E D : ℚ)
    (hE : ∀ v ∈ ps, E ≤ v.2) (hD : ∀ v ∈ ps, v.2 ≤ D)
    (hy : pt.2 < E ∨ D < pt.2) : ¬ inside_poly ps pt := by
  unfold inside_poly
  intro hodd
  have hzero : ((poly_edges ps).countP fun e => decide (ray_crosses pt e)) = 0 := by
    rw [List.countP_eq_zero]
    intro e he
    simp only [decide_eq_true_eq]
    rintro ⟨hsp, _⟩
    obtain ⟨h1, h2⟩ := poly_edges_mem ps e he
    have he1 := hE e.1 h1
    have he2 := hE e.2 h2
    have hd1 := hD e.1 h1
    have hd2 := hD e.2 h2
    rcases hsp with ⟨hs1, hs2⟩ | ⟨hs1, hs2⟩ <;> rcases hy with hy | hy <;> linarith
  rw [hzero] at hodd
  exact absurd hodd (by norm_num)

theorem inside_poly_bbox (ps : List (ℚ × ℚ)) (pt : ℚ × ℚ) (A B E D : ℚ)
    (hA : ∀ v ∈ ps, A ≤ v.1) (hB : ∀ v ∈ ps, v.1 ≤ B)
    (hE : ∀ v ∈ ps, E ≤ v.2) (hD : ∀ v ∈ ps, v.2 ≤ D)
    (h : inside_poly ps pt) : A ≤ pt.1 ∧ pt.1 ≤ B ∧ E ≤ pt.2 ∧ pt.2 ≤ D := by
  refine ⟨?_, ?_, ?_, ?_⟩
  · by_contra hc
    push_neg at hc
    exact not_inside_of_left ps pt A hA hc h
  · by_contra hc
    push_neg at hc
    exact not_inside_of_right ps pt B hB hc h
  · by_contra hc
    push_neg at hc
    exact not_inside_of_y ps pt E D hE hD (Or.inl hc) h
  · by_contra hc
    push_neg at hc
    exact not_inside_of_y ps pt E D hE hD (Or.inr hc) h

theorem muldiv255_zero (a : ℤ) : muldiv255 a 0 = 0 := by
  unfold muldiv255
  rw [mul_zero]
  rfl

theorem m_outer_bbox (size : Nat) :
    ∀ v ∈ m_outer size,
      ((left size : ℚ) ≤ v.1 ∧ v.1 ≤ (right size : ℚ)) ∧
      ((top size : ℚ) ≤ v.2 ∧ v.2 ≤ (bottom size : ℚ)) := by
  have hmx : margin_x size ≤ size := by
    unfold margin_x
    omega
  have hmb : margin_bottom size ≤ size := by
    unfold margin_bottom
    omega
  have hrq : (right size : ℚ) = (size : ℚ) - (margin_x size : ℚ) := by
    unfold right
    rw [Nat.cast_sub hmx]
  have hbq : (bottom size : ℚ) = (size : ℚ) - (margin_top size : ℚ) := by
    unfold bottom
    rw [Nat.cast_sub hmb]
    unfold margin_bottom margin_top
    norm_num
  have hleft : (left size : ℚ) = (margin_x size : ℚ) := rfl
  have htopq : (top size : ℚ) = (margin_top size : ℚ) := rfl
  have f1 : margin_x size + margin_x size ≤ size := by
    unfold margin_x
    omega
  have f2 : 20 * margin_x size + 11 * stroke size ≤ 10 * size := by
    unfold margin_x stroke
    omega
  have f3 : margin_x size ≤ center_x size := by
    unfold margin_x center_x
    omega
  have f4 : center_x size + margin_x size ≤ size := by
    unfold margin_x center_x
    omega
  have f5 : margin_top size + margin_top size ≤ size := by
    unfold margin_top
    omega
  have f6 : margin_top size + margin_top size + v_depth size ≤ size := by
    unfold margin_top v_depth
    omega
  have f7 : 20 * margin_top size + 10 * v_depth size + 7 * stroke size ≤ 10 * size := by
    unfold margin_top v_depth stroke
    omega
  have f8 : 10 * margin_top size + 4 * stroke size ≤ 5 * size := by
    unfold margin_top stroke
    omega
  have f9 : margin_x size + margin_x size + stroke size ≤ size := by
    unfold margin_x stroke
    omega
  have q1 : (margin_x size : ℚ) + (margin_x size : ℚ) ≤ (size : ℚ) := by exact_mod_cast f1
  have q2 : 20 * (margin_x size : ℚ) + 11 * (stroke size : ℚ) ≤ 10 * (size : ℚ) := by
    exact_mod_cast f2
  have q3 : (margin_x size : ℚ) ≤ (center_x size : ℚ) := by exact_mod_cast f3
  have q4 : (center_x size : ℚ) + (margin_x size : ℚ) ≤ (size : ℚ) := by exact_mod_cast f4
  have q5 : (margin_top size : ℚ) + (margin_top size : ℚ) ≤ (size : ℚ) := by exact_mod_cast f5
  have q6 : (margin_top size : ℚ) + (margin_top size : ℚ) + (v_depth size : ℚ) ≤ (size : ℚ) := by
    exact_mod_cast f6
  have q7 : 20 * (margin_top size : ℚ) + 10 * (v_depth size : ℚ) + 7 * (stroke size : ℚ) ≤
      10 * (size : ℚ) := by exact_mod_cast f7
  have q8 : 10 * (margin_top size : ℚ) + 4 * (stroke size : ℚ) ≤ 5 * (size : ℚ) := by
    exact_mod_cast f8
  have q9 : (margin_x size : ℚ) + (margin_x size : ℚ) + (stroke size : ℚ) ≤ (size : ℚ) := by
    exact_mod_cast f9
  have hs0 : (0 : ℚ) ≤ (stroke size : ℚ) := by positivity
  have hv0 : (0 : ℚ) ≤ (v_depth size : ℚ) := by positivity
  simp only [m_outer, List.forall_mem_cons]
  and_intros <;>
    first
    | linarith
    | exact fun v hv => absurd hv (List.not_mem_nil v)

/-! #### Claim theorems -/

/-- C1: running the full pipeline writes exactly one output file per entry of
the fixed 10-entry resolution ladder, each sized file with pixel dimensions
equal to its ladder entry, plus the master AppIcon.png at the full 1024
resolution and the Contents.json manifest; and the manifest image entries are
in 1:1 correspondence with the 10 sized files: same count, same filenames, in
the same order. -/
theorem c1_resolution_ladder_and_manifest :
    sizes.length = 10 ∧
    generate_all_sizes (1024, 1024) =
      (sizes.map fun e => (e.2, (e.1, e.1))) ++ [("AppIcon.png", (1024, 1024))] ∧
    pipeline_files.length = 12 ∧
    pipeline_files = sizes.map Prod.snd ++ ["AppIcon.png", "Contents.json"] ∧
    contents_images.length = sizes.length ∧
    contents_images.map ManifestImage.filename = sizes.map Prod.snd :=
⟨rfl, rfl, rfl, rfl, rfl, rfl⟩

/-- C2: for every canvas dimension N (at least 1) and every row y, the
gradient loop writes a single color to the whole row; the normalized position
equals clamp((y - top) / (bottom - top), 0, 1); the row color interpolates
top-to-mid for t < 0.5 and mid-to-bottom otherwise (that is how row_color is
defined from the source); and the color at row top equals the top stop, at
row bottom the bottom stop, and at the midpoint row (2 y = top + bottom)
exactly the mid stop. -/
theorem c2_gradient_fill (size y x x' : Nat) (hsize : 1 ≤ size)
    (hx : x < size) (hx' : x' < size) (hy : y < size) :
    m_gradient size (x, y) = m_gradient size (x', y) ∧
    m_gradient size (x, y) = m_gradient_at size y ∧
    grad_t size y =
      max 0 (min 1 (((y : ℚ) - (top size : ℚ)) / ((bottom size : ℚ) - (top size : ℚ)))) ∧
    row_color size (top size) = grad_top ∧
    row_color size (bottom size) = grad_bottom ∧
    (∀ ym : Nat, 2 * ym = top size + bottom size → row_color size ym = grad_mid) := by
  have h1 : m_gradient size (x, y) = m_gradient_at size y :=
    pixel_loop_eq (fun _ yy => m_gradient_at size yy) size _ x y hx hy
  have h2 : m_gradient size (x', y) = m_gradient_at size y :=
    pixel_loop_eq (fun _ yy => m_gradient_at size yy) size _ x' y hx' hy
  refine ⟨h1.trans h2.symm, h1, grad_t_eq_clamp size y hsize,
    row_color_top size hsize, row_color_bottom size hsize, ?_⟩
  intro ym hm
  exact row_color_mid size ym hsize hm

/-- Witness for C2 at size 1024, row 512 (the midpoint row, since top = 225
and bottom = 799), columns 0 and 1. -/
theorem c2_gradient_fill_witness :
    (1 ≤ 1024 ∧ 0 < 1024 ∧ 1 < 1024 ∧ 512 < 1024) ∧
    (m_gradient 1024 (0, 512) = m_gradient 1024 (1, 512) ∧
     m_gradient 1024 (0, 512) = m_gradient_at 1024 512 ∧
     grad_t 1024 512 =
       max 0 (min 1 (((512 : ℚ) - (top 1024 : ℚ)) / ((bottom 1024 : ℚ) - (top 1024 : ℚ)))) ∧
     row_color 1024 (top 1024) = grad_top ∧
     row_color 1024 (bottom 1024) = grad_bottom ∧
     (∀ ym : Nat, 2 * ym = top 1024 + bottom 1024 → row_color 1024 ym = grad_mid)) :=
  ⟨⟨by norm_num, by norm_num, by norm_num, by norm_num⟩,
   c2_gradient_fill 1024 512 0 1 (by norm_num) (by norm_num) (by norm_num) (by norm_num)⟩

/-- C4: for every positive canvas dimension N, the background painter always
succeeds (it is total) and produces a buffer in which every pixel of the
canvas has alpha 255 and each RGB component lies between the corresponding
components of bg_dark and bg_lighter, for any nonnegative per-pixel distance
value. -/
theorem c4_background_opaque_and_bounded (dist : Nat → Nat → ℚ) (size x y : Nat)
    (hd : 0 ≤ dist x y) (hx : x < size) (hy : y < size) :
    (background dist size (x, y)).a = 255 ∧
    bg_dark.1 ≤ (background dist size (x, y)).r ∧
    (background dist size (x, y)).r ≤ bg_lighter.1 ∧
    bg_dark.2.1 ≤ (background dist size (x, y)).g ∧
    (background dist size (x, y)).g ≤ bg_lighter.2.1 ∧
    bg_dark.2.2 ≤ (background dist size (x, y)).b ∧
    (background dist size (x, y)).b ≤ bg_lighter.2.2 := by
  have he : background dist size (x, y) = bg_pixel (dist x y) :=
    pixel_loop_eq (fun xx yy => bg_pixel (dist xx yy)) size _ x y hx hy
  rw [he]
  have ht0 : 0 ≤ bg_t (dist x y) :=
    le_min (by norm_num) (mul_nonneg hd (by norm_num))
  have ht1 : bg_t (dist x y) ≤ 1 := min_le_left _ _
  have hb1 := bg_chan_bounds bg_lighter.1 bg_dark.1 (bg_t (dist x y))
    (by norm_num [bg_dark, bg_lighter]) (by norm_num [bg_dark]) ht0 ht1
  have hb2 := bg_chan_bounds bg_lighter.2.1 bg_dark.2.1 (bg_t (dist x y))
    (by norm_num [bg_dark, bg_lighter]) (by norm_num [bg_dark]) ht0 ht1
  have hb3 := bg_chan_bounds bg_lighter.2.2 bg_dark.2.2 (bg_t (dist x y))
    (by norm_num [bg_dark, bg_lighter]) (by norm_num [bg_dark]) ht0 ht1
  exact ⟨rfl, hb1.1, hb1.2, hb2.1, hb2.2, hb3.1, hb3.2⟩

/-- Witness for C4 at size 1, pixel (0, 0), distance value 0. -/
theorem c4_background_opaque_and_bounded_witness :
    ((0 : ℚ) ≤ 0 ∧ 0 < 1) ∧
    ((background (fun _ _ => 0) 1 (0, 0)).a = 255 ∧
     bg_dark.1 ≤ (background (fun _ _ => 0) 1 (0, 0)).r ∧
     (background (fun _ _ => 0) 1 (0, 0)).r ≤ bg_lighter.1 ∧
     bg_dark.2.1 ≤ (background (fun _ _ => 0) 1 (0, 0)).g ∧
     (background (fun _ _ => 0) 1 (0, 0)).g ≤ bg_lighter.2.1 ∧
     bg_dark.2.2 ≤ (background (fun _ _ => 0) 1 (0, 0)).b ∧
     (background (fun _ _ => 0) 1 (0, 0)).b ≤ bg_lighter.2.2) :=
  ⟨⟨le_refl 0, by norm_num⟩,
   c4_background_opaque_and_bounded (fun _ _ => 0) 1 0 0 (le_refl 0)
     (by norm_num) (by norm_num)⟩

/-- C5: for every canvas dimension N at or above 64 the rounded-rectangle
mask is 255 at every pixel inside the rounded-rectangle region and 0 at
every pixel outside it; in particular the four extreme corner pixels (which
lie within radius R of a corner but outside the rounded arc) are 0 and the
center pixel is 255. -/
theorem c5_rounded_mask (size : Nat) (hsize : 64 ≤ size) :
    rounded_mask size 0 0 = 0 ∧
    rounded_mask size (size - 1) 0 = 0 ∧
    rounded_mask size 0 (size - 1) = 0 ∧
    rounded_mask size (size - 1) (size - 1) = 0 ∧
    rounded_mask size (size / 2) (size / 2) = 255 ∧
    (∀ x y : Nat, in_rounded_rect size (corner_radius size) x y →
      rounded_mask size x y = 255) ∧
    (∀ x y : Nat, ¬ in_rounded_rect size (corner_radius size) x y →
      rounded_mask size x y = 0) := by
  have hr4 : 4 ≤ corner_radius size := by
    unfold corner_radius
    omega
  have hrz : (4 : ℤ) ≤ (corner_radius size : ℤ) := by exact_mod_cast hr4
  have hs1 : 1 ≤ size := by omega
  have hsz : (64 : ℤ) ≤ (size : ℤ) := by exact_mod_cast hsize
  have hcast1 : ((size - 1 : ℕ) : ℤ) = (size : ℤ) - 1 := by omega
  have hrs : corner_radius size + corner_radius size ≤ size := by
    unfold corner_radius
    omega
  have hrsz : (corner_radius size : ℤ) + (corner_radius size : ℤ) ≤ (size : ℤ) := by
    exact_mod_cast hrs
  have hno1 : ¬ in_rounded_rect size (corner_radius size) 0 0 := by
    intro h
    obtain ⟨_, _, h1, _, _, _⟩ := h
    have hc := h1 ⟨by omega, by omega⟩
    push_cast at hc
    nlinarith [sq_nonneg ((corner_radius size : ℤ) - 4)]
  have hno2 : ¬ in_rounded_rect size (corner_radius size) (size - 1) 0 := by
    intro h
    obtain ⟨_, _, _, h2, _, _⟩ := h
    have hc := h2 ⟨by omega, by omega⟩
    rw [hcast1] at hc
    push_cast at hc
    nlinarith [sq_nonneg ((corner_radius size : ℤ) - 4)]
  have hno3 : ¬ in_rounded_rect size (corner_radius size) 0 (size - 1) := by
    intro h
    obtain ⟨_, _, _, _, h3, _⟩ := h
    have hc := h3 ⟨by omega, by omega⟩
    rw [hcast1] at hc
    push_cast at hc
    nlinarith [sq_nonneg ((corner_radius size : ℤ) - 4)]
  have hno4 : ¬ in_rounded_rect size (corner_radius size) (size - 1) (size - 1) := by
    intro h
    obtain ⟨_, _, _, _, _, h4⟩ := h
    have hc := h4 ⟨by omega, by omega⟩
    rw [hcast1] at hc
    nlinarith [sq_nonneg ((corner_radius size : ℤ) - 4)]
  have hrc : corner_radius size ≤ size / 2 := by
    unfold corner_radius
    omega
  have hcs : size / 2 + corner_radius size ≤ size := by
    unfold corner_radius
    omega
  have hyes : in_rounded_rect size (corner_radius size) (size / 2) (size / 2) := by
    refine ⟨by omega, by omega, ?_, ?_, ?_, ?_⟩
    · intro hg
      exfalso
      omega
    · intro hg
      exfalso
      omega
    · intro hg
      exfalso
      omega
    · intro hg
      exfalso
      omega
  refine ⟨?_, ?_, ?_, ?_, ?_, ?_, ?_⟩
  · unfold rounded_mask
    rw [if_neg hno1]
  · unfold rounded_mask
    rw [if_neg hno2]
  · unfold rounded_mask
    rw [if_neg hno3]
  · unfold rounded_mask
    rw [if_neg hno4]
  · unfold rounded_mask
    rw [if_pos hyes]
  · intro x y h
    unfold rounded_mask
    rw [if_pos h]
  · intro x y h
    unfold rounded_mask
    rw [if_neg h]

/-- Witness for C5 at size 1024. -/
theorem c5_rounded_mask_witness :
    64 ≤ 1024 ∧
    (rounded_mask 1024 0 0 = 0 ∧
     rounded_mask 1024 1023 0 = 0 ∧
     rounded_mask 1024 0 1023 = 0 ∧
     rounded_mask 1024 1023 1023 = 0 ∧
     rounded_mask 1024 512 512 = 255 ∧
     (∀ x y : Nat, in_rounded_rect 1024 (corner_radius 1024) x y →
       rounded_mask 1024 x y = 255) ∧
     (∀ x y : Nat, ¬ in_rounded_rect 1024 (corner_radius 1024) x y →
       rounded_mask 1024 x y = 0)) :=
  ⟨by norm_num, c5_rounded_mask 1024 (by norm_num)⟩

/-- C3: the finalizer composites the three layers in the strict order
background, then glow, then sharp glyph, and then multiplies the result
alpha by the rounded mask a second time; consequently at every pixel where
the rounded mask is 0 the final alpha is 0, whatever the blurred glow layer
holds there. -/
theorem c3_finalizer_remask (glow : Nat → Nat → RGBA) (dist : Nat → Nat → ℚ)
    (size x y : Nat) (hmask : rounded_mask size x y = 0) :
    create_icon glow dist size x y =
      ⟨(over_pixel (over_pixel (layer_bg_from dist size (fun _ => ⟨0, 0, 0, 0⟩) x y) (glow x y))
          (layer_grad_from size (fun _ => ⟨0, 0, 0, 0⟩) x y)).r,
       (over_pixel (over_pixel (layer_bg_from dist size (fun _ => ⟨0, 0, 0, 0⟩) x y) (glow x y))
          (layer_grad_from size (fun _ => ⟨0, 0, 0, 0⟩) x y)).g,
       (over_pixel (over_pixel (layer_bg_from dist size (fun _ => ⟨0, 0, 0, 0⟩) x y) (glow x y))
          (layer_grad_from size (fun _ => ⟨0, 0, 0, 0⟩) x y)).b,
       muldiv255 (over_pixel (over_pixel (layer_bg_from dist size (fun _ => ⟨0, 0, 0, 0⟩) x y)
          (glow x y)) (layer_grad_from size (fun _ => ⟨0, 0, 0, 0⟩) x y)).a
         (rounded_mask size x y : ℤ)⟩ ∧
    (create_icon glow dist size x y).a = 0 := by
  refine ⟨rfl, ?_⟩
  show muldiv255 (over_pixel (over_pixel (layer_bg_from dist size (fun _ => ⟨0, 0, 0, 0⟩) x y)
      (glow x y)) (layer_grad_from size (fun _ => ⟨0, 0, 0, 0⟩) x y)).a
    (rounded_mask size x y : ℤ) = 0
  rw [hmask]
  exact muldiv255_zero _

/-- Witness for C3 at size 1024, pixel (0, 0), which the rounded mask
excludes, with the all-transparent glow layer and the zero distance
function. -/
theorem c3_finalizer_remask_witness :
    rounded_mask 1024 0 0 = 0 ∧
    (create_icon (fun _ _ => ⟨0, 0, 0, 0⟩) (fun _ _ => 0) 1024 0 0).a = 0 :=
  ⟨by decide,
   (c3_finalizer_remask (fun _ _ => ⟨0, 0, 0, 0⟩) (fun _ _ => 0) 1024 0 0 (by decide)).2⟩

/-- C9: the M-glyph mask built by create_icon is 0 at every pixel outside
the rectangle spanning horizontally from margin_x to size - margin_x and
vertically from margin_top to size - margin_bottom: the glyph, before the
glow blur, never reaches into the margin bands. -/
theorem c9_glyph_within_margins (size x y : Nat)
    (h : x < margin_x size ∨ size - margin_x size < x ∨
      y < margin_top size ∨ size - margin_bottom size < y) :
    m_mask size x y = 0 := by
  have hno : ¬ inside_poly (m_outer size) ((x : ℚ), (y : ℚ)) := by
    intro hin
    have hbb := inside_poly_bbox (m_outer size) ((x : ℚ), (y : ℚ))
      (left size : ℚ) (right size : ℚ) (top size : ℚ) (bottom size : ℚ)
      (fun v hv => ((m_outer_bbox size v hv).1).1)
      (fun v hv => ((m_outer_bbox size v hv).1).2)
      (fun v hv => ((m_outer_bbox size v hv).2).1)
      (fun v hv => ((m_outer_bbox size v hv).2).2)
      hin
    obtain ⟨hbA, hbB, hbE, hbD⟩ := hbb
    rcases h with h | h | h | h
    · have hc : (margin_x size : ℚ) ≤ (x : ℚ) := hbA
      have hn : margin_x size ≤ x := by exact_mod_cast hc
      omega
    · have hc : (x : ℚ) ≤ ((size - margin_x size : ℕ) : ℚ) := hbB
      have hn : x ≤ size - margin_x size := by exact_mod_cast hc
      omega
    · have hc : (margin_top size : ℚ) ≤ (y : ℚ) := hbE
      have hn : margin_top size ≤ y := by exact_mod_cast hc
      omega
    · have hc : (y : ℚ) ≤ ((size - margin_bottom size : ℕ) : ℚ) := hbD
      have hn : y ≤ size - margin_bottom size := by exact_mod_cast hc
      omega
  unfold m_mask
  rw [if_neg hno]

/-- Witness for C9 at size 1024, pixel (0, 0), inside the left margin band
(margin_x 1024 = 184). -/
theorem c9_glyph_within_margins_witness :
    (0 < margin_x 1024 ∨ 1024 - margin_x 1024 < 0 ∨
      0 < margin_top 1024 ∨ 1024 - margin_bottom 1024 < 0) ∧
    m_mask 1024 0 0 = 0 :=
  ⟨Or.inl (by norm_num [margin_x]),
   c9_glyph_within_margins 1024 0 0 (Or.inl (by norm_num [margin_x]))⟩

/-- C10: create_icon is deterministic: its output pixels depend only on the
canvas dimension and the embedded constants.  The only mutable state in the
function are the pixel buffers; starting the per-pixel loops from any two
initial buffer contents yields identical final pixels on the canvas, equal
to the run the script performs (both buffers initially transparent).  The
glow layer and the per-pixel sqrt distances are themselves fixed functions
of the size, so two invocations with the same size agree pixel for pixel. -/
theorem c10_deterministic (glow : Nat → Nat → RGBA) (dist : Nat → Nat → ℚ)
    (size x y : Nat) (bg1 bg2 grad1 grad2 : Buffer RGBA)
    (hx : x < size) (hy : y < size) :
    create_icon_from glow dist size bg1 grad1 x y =
      create_icon_from glow dist size bg2 grad2 x y ∧
    create_icon_from glow dist size bg1 grad1 x y = create_icon glow dist size x y := by
  have key : ∀ b g : Buffer RGBA, create_icon_from glow dist size b g x y =
      create_icon_from glow dist size (fun _ => ⟨0, 0, 0, 0⟩) (fun _ => ⟨0, 0, 0, 0⟩) x y := by
    intro b g
    unfold create_icon_from layer_bg_from layer_grad_from
    rw [pixel_loop_eq (fun xx yy => bg_pixel (dist xx yy)) size b x y hx hy,
      pixel_loop_eq (fun xx yy => bg_pixel (dist xx yy)) size (fun _ => ⟨0, 0, 0, 0⟩) x y hx hy,
      pixel_loop_eq (fun _ yy => m_gradient_at size yy) size g x y hx hy,
      pixel_loop_eq (fun _ yy => m_gradient_at size yy) size (fun _ => ⟨0, 0, 0, 0⟩) x y hx hy]
  exact ⟨(key bg1 grad1).trans (key bg2 grad2).symm, key bg1 grad1⟩

/-- Witness for C10 at size 1, pixel (0, 0), with two different initial
buffer contents. -/
theorem c10_deterministic_witness :
    (0 < 1 ∧ 0 < 1) ∧
    (create_icon_from (fun _ _ => ⟨0, 0, 0, 0⟩) (fun _ _ => 0) 1
        (fun _ => ⟨0, 0, 0, 0⟩) (fun _ => ⟨0, 0, 0, 0⟩) 0 0 =
      create_icon_from (fun _ _ => ⟨0, 0, 0, 0⟩) (fun _ _ => 0) 1
        (fun _ => ⟨7, 7, 7, 7⟩) (fun _ => ⟨9, 9, 9, 9⟩) 0 0 ∧
     create_icon_from (fun _ _ => ⟨0, 0, 0, 0⟩) (fun _ _ => 0) 1
        (fun _ => ⟨0, 0, 0, 0⟩) (fun _ => ⟨0, 0, 0, 0⟩) 0 0 =
      create_icon (fun _ _ => ⟨0, 0, 0, 0⟩) (fun _ _ => 0) 1 0 0) :=
  ⟨⟨by norm_num, by norm_num⟩,
   c10_deterministic (fun _ _ => ⟨0, 0, 0, 0⟩) (fun _ _ => 0) 1 0 0
     (fun _ => ⟨0, 0, 0, 0⟩) (fun _ => ⟨7, 7, 7, 7⟩)
     (fun _ => ⟨0, 0, 0, 0⟩) (fun _ => ⟨9, 9, 9, 9⟩) (by norm_num) (by norm_num)⟩

/-- C6: the glyph polygon builder outputs one ordered list of exactly 12
vertices tracing the M in the source order (left-outer-bottom,
left-outer-top, inward diagonal to the center peak, outward diagonal to
right-outer-top, right-outer-bottom, right-inner-bottom, inward diagonal back
to a shallower center peak, outward diagonal to left-inner, left-inner-bottom),
and the outer peak is shallower than the inner peak by exactly the
stroke-derived offset 0.7 * stroke. -/
theorem c6_glyph_polygon (size : Nat) :
    (m_outer size).length = 12 ∧
    (m_outer size).getD 0 (0, 0) = ((left size : ℚ), (bottom size : ℚ)) ∧
    (m_outer size).getD 1 (0, 0) = ((left size : ℚ), (top size : ℚ)) ∧
    (m_outer size).getD 3 (0, 0) = ((center_x size : ℚ), (top size : ℚ) + (v_depth size : ℚ)) ∧
    (m_outer size).getD 5 (0, 0) = ((right size : ℚ), (top size : ℚ)) ∧
    (m_outer size).getD 6 (0, 0) = ((right size : ℚ), (bottom size : ℚ)) ∧
    (m_outer size).getD 7 (0, 0) = ((right size : ℚ) - (stroke size : ℚ), (bottom size : ℚ)) ∧
    (m_outer size).getD 9 (0, 0) =
      ((center_x size : ℚ), (top size : ℚ) + (v_depth size : ℚ) + (stroke size : ℚ) * (7 / 10)) ∧
    (m_outer size).getD 11 (0, 0) = ((left size : ℚ) + (stroke size : ℚ), (bottom size : ℚ)) ∧
    ((m_outer size).getD 9 (0, 0)).2 - ((m_outer size).getD 3 (0, 0)).2 =
      (7 / 10) * (stroke size : ℚ) := by
  refine ⟨rfl, rfl, rfl, rfl, rfl, rfl, rfl, rfl, rfl, ?_⟩
  show (top size : ℚ) + (v_depth size : ℚ) + (stroke size : ℚ) * (7 / 10) -
      ((top size : ℚ) + (v_depth size : ℚ)) = (7 / 10) * (stroke size : ℚ)
  ring

/-- C7: if the initial PIL import fails, the program makes exactly one install
attempt and retries the import; if the install succeeds the program continues
with the retried bindings, and if the install fails the process aborts with
the underlying error.  If the initial import succeeds, no install attempt is
made. -/
theorem c7_dependency_bootstrap (installOk : Bool) :
    (import_guard false installOk).2 = 1 ∧
    (import_guard false true).1 = BootstrapOutcome.ok ["Image", "ImageDraw", "ImageFilter"] ∧
    (import_guard false false).1 = BootstrapOutcome.aborted "CalledProcessError" ∧
    (import_guard true installOk).2 = 0 := by
  cases installOk <;> exact ⟨rfl, rfl, rfl, rfl⟩

/-- C8: on the dependency-fallback path (initial import fails, install
succeeds) the retried import binds only Image, ImageDraw and ImageFilter,
omitting ImageChops, so create_icon cannot complete (it raises NameError at
the re-masking step, line 142); consequently create_icon can only complete
when PIL was importable at startup. -/
theorem c8_fallback_misses_imagechops :
    (∀ bound, (import_guard false true).1 = BootstrapOutcome.ok bound →
      bound.contains "ImageChops" = false ∧ create_icon_completes bound = false) ∧
    (∀ importOk installOk bound,
      (import_guard importOk installOk).1 = BootstrapOutcome.ok bound →
      create_icon_completes bound = true → importOk = true) := by
  constructor
  · intro bound h
    have hb : bound = ["Image", "ImageDraw", "ImageFilter"] := by
      cases h
      rfl
    subst hb
    exact ⟨rfl, rfl⟩
  · intro importOk installOk bound h hc
    cases importOk
    · cases installOk
      · cases h
      · have hb : bound = ["Image", "ImageDraw", "ImageFilter"] := by
          cases h
          rfl
        subst hb
        cases hc
    · rfl

end GenerateIcon
